import Mathlib

/-!
Verification of qri's reference-resolution coordinator and p2p events handler

Shallow embedding of:
* `actions/dataset_ref.go` — `ResolveDatasetRef`, the multi-source resolution
  coordinator that races a registry client and the peer network after a failed
  local canonicalization;
* `p2p/events.go` — `handleEvents`, the responder side of the "list_events"
  message exchange;
* `logbook/log/log.fbs` — the flatbuffer schema for serialized operation logs.

Goroutines communicating over the shared `responses` channel are modelled by an
explicit arrival order: a list of task identities giving the order in which the
launched tasks' results are read off the channel.  The peer goroutine is handed
the caller's ref pointer, so besides the channel it has a second effect: an
in-place mutation of the caller's ref when it completes; `callerRefFinal`
models the ref cell under that aliasing, ordered by task completion.
Collaborator interfaces that are external to these sources
(`repo.CanonicalizeDatasetRef`, `rc.ResolveHeadRef`, `node.ResolveDatasetRef`)
are fields of an environment record, so every theorem quantifies over their
behavior.
-/

namespace Qri

/-! Section: Data model: dataset references -/

/-- Go struct `repo.DatasetRef`: a resolvable pointer with four components
(peername, dataset name, profile/identity id, content-addressed path). -/
structure DatasetRef where
  peername : String
  name : String
  profileID : String
  path : String
deriving DecidableEq, Repr

/-- Modelled from the spec: `repo.DatasetRef.Complete` is not among these
source files (only its call site in `actions/dataset_ref.go` is); the spec
states "`Complete()` holds iff all four fields are populated". -/
def DatasetRef.Complete (r : DatasetRef) : Bool :=
  r.peername != "" && r.name != "" && r.profileID != "" && r.path != ""

/-! Section: Errors

Go errors are compared by identity in `ResolveDatasetRef`
(`err != repo.ErrNotFound && err != profile.ErrNotFound`); an inductive type
with decidable equality models the distinguished error values, and
`fmt.Errorf` wrapping is modelled by a constructor carrying the inner error
(its message embeds the inner error's message via `%s`). -/

/-- Error values observable in `actions/dataset_ref.go` and `p2p/events.go`. -/
inductive GoErr where
  /-- Go value `repo.ErrNotFound` -/
  | repoNotFound
  /-- Go value `profile.ErrNotFound` -/
  | profileNotFound
  /-- Go error `fmt.Errorf("p2p network responded with incomplete reference")` -/
  | incompleteNetworkResponse
  /-- Go error `fmt.Errorf("node is not online and no registry is configured")` -/
  | noResolutionPath
  /-- Go error `fmt.Errorf("error resolving ref: %s", err)` — wraps the last task error -/
  | resolutionFailed (inner : GoErr)
  /-- any other error value, identified by its message -/
  | errMsg (s : String)
deriving DecidableEq, Repr

/-! Section: Resolution coordinator (`actions/dataset_ref.go`, `ResolveDatasetRef`) -/

/-- The two kinds of concurrent resolution tasks the coordinator can launch. -/
inductive TaskKind where
  /-- the registry-client task (`rc.ResolveHeadRef` goroutine) -/
  | registry
  /-- the peer-network task (`node.ResolveDatasetRef` goroutine) -/
  | peer
deriving DecidableEq, Repr

/-- The `response` struct sent on the shared `responses` channel. -/
structure Response where
  ref : DatasetRef
  error : Option GoErr
deriving DecidableEq, Repr

/-- Environment of a `ResolveDatasetRef` call: configuration flags plus the
observable outcome of each collaborator interface.  Each collaborator is a
function from the ref it is handed to the (mutated ref, returned error) pair,
matching the Go signatures which mutate a `*repo.DatasetRef` and return an
`error`. -/
structure ResolveEnv where
  /-- outcome of `repo.CanonicalizeDatasetRef(node.Repo, ref)` -/
  canonicalize : DatasetRef → DatasetRef × Option GoErr
  /-- whether `rc != nil` -/
  hasRegistryClient : Bool
  /-- the `remoteAddr` argument -/
  remoteAddr : String
  /-- flag `node.Online` -/
  online : Bool
  /-- outcome of `rc.ResolveHeadRef(node.Context(), ref, remoteAddr)` -/
  resolveHeadRef : DatasetRef → DatasetRef × Option GoErr
  /-- outcome of `node.ResolveDatasetRef(ctx, ref)` -/
  nodeResolve : DatasetRef → DatasetRef × Option GoErr

/-- The tasks launched by a call that reaches the fan-out stage, in program
order: the registry goroutine is started iff `rc != nil && remoteAddr != ""`,
the peer-network goroutine iff `node.Online`. -/
def launchedTasks (env : ResolveEnv) : List TaskKind :=
  (if env.hasRegistryClient && env.remoteAddr != "" then [TaskKind.registry] else [])
    ++ (if env.online then [TaskKind.peer] else [])

/-- The response each launched task places on the `responses` channel, given
the ref `ref1` left by canonicalization.

* registry: the goroutine receives `refCopy`, a field-by-field copy of the
  ref, runs `rc.ResolveHeadRef` on it and sends `{Ref: refCopy, Error: err}`.
* peer: the goroutine runs `node.ResolveDatasetRef` on the ref; if the
  resulting ref is not `Complete()` while the error is nil, the error is
  replaced by `fmt.Errorf("p2p network responded with incomplete reference")`
  before sending. -/
def taskResponse (env : ResolveEnv) (ref1 : DatasetRef) : TaskKind → Response
  | TaskKind.registry =>
      let refCopy : DatasetRef :=
        { peername := ref1.peername, name := ref1.name
          profileID := ref1.profileID, path := ref1.path }
      let out := env.resolveHeadRef refCopy
      { ref := out.1, error := out.2 }
  | TaskKind.peer =>
      let out := env.nodeResolve ref1
      let err := if !out.1.Complete && out.2.isNone then
          some GoErr.incompleteNetworkResponse
        else out.2
      { ref := out.1, error := err }

/-- The consuming loop
`for i := 0; i < tasks; i++ { res := <-responses; err = res.Error; if err == nil { success = true; *ref = *res.Ref; break } }`:
walk the arrival order, remembering the last observed error; stop at the first
response whose error is nil and return it as the winner. -/
def consumeResults (resp : TaskKind → Response) :
    List TaskKind → Option GoErr → Option GoErr × Option Response
  | [], lastErr => (lastErr, none)
  | k :: rest, _ =>
      let r := resp k
      match r.error with
      | none => (none, some r)
      | some e => consumeResults resp rest (some e)

/-- Result of a `ResolveDatasetRef` call: the returned `(local, err)` pair,
the contents the function's own writes leave in the caller's ref
(canonicalization, then the winning assignment `*ref = *res.Ref`), and the
list of tasks launched (empty when the call returns before the fan-out
stage, witnessing that no network I/O was started).  The peer goroutine is
handed the caller's ref pointer and `node.ResolveDatasetRef` mutates it in
place; that aliasing is modelled separately by `callerRefFinal` below, since
a peer task still pending when the winner is chosen overwrites the cell when
it later completes. -/
structure ResolveOutcome where
  isLocal : Bool
  err : Option GoErr
  ref : DatasetRef
  launched : List TaskKind
deriving DecidableEq, Repr

/-- Go function `actions.ResolveDatasetRef`.  `arrival` is the order in which the launched
tasks' results are read off the shared channel; theorems restrict it to a
permutation of `launchedTasks env`.

1. Canonicalize against the local repo. On nil error with a non-empty path,
   return `(true, nil)` at once.  On any error other than `repo.ErrNotFound`
   or `profile.ErrNotFound`, return `(false, err)` at once.
2. Launch a goroutine per configured source; with zero tasks fail with
   "node is not online and no registry is configured".
3. Consume results in arrival order; the first nil-error response wins: its
   ref is copied into the caller's ref and the call returns `(false, nil)`.
4. With no winner, return `(false, fmt.Errorf("error resolving ref: %s", err))`
   wrapping the last observed error.  (The `GoErr.errMsg ""` default is
   unreachable when `arrival` is a permutation of a non-empty task list.) -/
def ResolveDatasetRef (env : ResolveEnv) (arrival : List TaskKind)
    (ref : DatasetRef) : ResolveOutcome :=
  let c := env.canonicalize ref
  let ref1 := c.1
  let cerr := c.2
  if cerr.isNone && ref1.path != "" then
    { isLocal := true, err := none, ref := ref1, launched := [] }
  else if cerr.isSome && cerr ≠ some GoErr.repoNotFound
      && cerr ≠ some GoErr.profileNotFound then
    { isLocal := false, err := cerr, ref := ref1, launched := [] }
  else
    let tasks := launchedTasks env
    if tasks = [] then
      { isLocal := false, err := some GoErr.noResolutionPath, ref := ref1
        launched := [] }
    else
      match consumeResults (taskResponse env ref1) arrival none with
      | (_, some winner) =>
          { isLocal := false, err := none, ref := winner.ref, launched := tasks }
      | (lastErr, none) =>
          { isLocal := false
            err := some (GoErr.resolutionFailed (lastErr.getD (GoErr.errMsg "")))
            ref := ref1, launched := tasks }

/-! Section: Events handler (`p2p/events.go`, `handleEvents`)

The handler receives a `Message` whose body is JSON.  JSON decoding of the
body into `EventsParams` is an external library call, so its outcome is a
parameter (`Except String EventsParams`, errors carrying the message that is
logged).  `Repo.Events` and `ws.sendMessage` are likewise external; their
outcomes are parameters.  The trace records exactly which effects ran. -/

/-- Go struct `p2p.EventsParams`: options for requesting event logs.  Go `int` is an
arbitrary signed integer here (no arithmetic is done on it, only comparisons,
so `Int` is a faithful model).  `Since` is carried but never read by the
handler. -/
structure EventsParams where
  limit : Int
  offset : Int
deriving DecidableEq, Repr

/-- A `repo.Event` record; the handler treats events as opaque payloads. -/
structure Event where
  payload : String
deriving DecidableEq, Repr

/-- Observable trace of one `handleEvents` call: the returned `hangup` flag,
whether an error was logged, the `(limit, offset)` pair passed to
`Repo.Events` (if the query ran), and the reply body sent back (if any). -/
structure EventsTrace where
  hangup : Bool
  loggedError : Bool
  queried : Option (Int × Int)
  replied : Option (List Event)
deriving DecidableEq, Repr

/-- Go method `(n *QriNode).handleEvents`, request phase included.
`listMax` is the package-level hard maximum (its defining file is not among
these sources; the handler only compares against it, so it stays a
parameter).  Control flow copied from the source:

* `hangup = true` throughout;
* a message whose `phase` header is not `"request"` falls through the switch
  and does nothing;
* a body that fails to decode is logged and the handler returns — no reply;
* `if ep.Limit == 0 || ep.Limit > listMax { ep.Limit = listMax }`;
* a `Repo.Events` error is logged and the handler returns — no reply;
* otherwise the refs are sent back with `phase: "response"`; a send error is
  logged. -/
def handleEvents (listMax : Int) (phase : String)
    (decodeBody : Except String EventsParams)
    (repoEvents : Int → Int → Except String (List Event))
    (sendOk : Bool) : EventsTrace :=
  if phase = "request" then
    match decodeBody with
    | Except.error _ =>
        { hangup := true, loggedError := true, queried := none, replied := none }
    | Except.ok ep =>
        let ep := if ep.limit = 0 || ep.limit > listMax then
            { ep with limit := listMax }
          else ep
        match repoEvents ep.limit ep.offset with
        | Except.error _ =>
            { hangup := true, loggedError := true
              queried := some (ep.limit, ep.offset), replied := none }
        | Except.ok refs =>
            { hangup := true, loggedError := !sendOk
              queried := some (ep.limit, ep.offset), replied := some refs }
  else
    { hangup := true, loggedError := false, queried := none, replied := none }

/-! Section: Serialized log format (`logbook/log/log.fbs`)

The flatbuffer schema is embedded as data: field names paired with their
wire types, transcribed from the IDL, plus the file identifier and file
extension declarations. -/

/-- Wire types appearing in the `logfb` schema. -/
inductive FBType where
  /-- enum backed by `byte` (`OpType`) -/
  | byteEnum
  /-- unsigned 32-bit (`uint`) -/
  | uint32
  /-- signed 64-bit (`long`) -/
  | int64
  /-- unsigned 64-bit (`ulong`) -/
  | uint64
  /-- UTF-8 string (`string`) -/
  | str
  /-- vector of strings (`[string]`) -/
  | vectorOfString
deriving DecidableEq, Repr

/-- Flatbuffer `enum OpType: byte { Unknown = 0, Init, Amend, Remove }` -/
inductive OpType where
  | Unknown
  | Init
  | Amend
  | Remove
deriving DecidableEq, Repr

/-- The byte value backing each `OpType` case: `Unknown = 0` is explicit,
the rest number consecutively per flatbuffer enum rules. -/
def OpType.toByte : OpType → Nat
  | OpType.Unknown => 0
  | OpType.Init => 1
  | OpType.Amend => 2
  | OpType.Remove => 3

/-- Fields of `table Operation` in declaration order with their wire types. -/
def operationSchema : List (String × FBType) :=
  [ ("type", FBType.byteEnum)
  , ("model", FBType.uint32)
  , ("ref", FBType.str)
  , ("prev", FBType.str)
  , ("relations", FBType.vectorOfString)
  , ("name", FBType.str)
  , ("authorID", FBType.str)
  , ("timestamp", FBType.int64)
  , ("size", FBType.uint64)
  , ("note", FBType.str) ]

/-- Schema declaration `file_identifier "QFBF"` — the schema comment records that this magic
number occupies bytes 4-7 of a serialized file. -/
def fileIdentifier : String := "QFBF"

/-- Schema declaration `file_extension "qfb"` — the dedicated extension for a "qri flatbuffer"
file. -/
def fileExtension : String := "qfb"

/-- The byte values (ASCII codes) of the file identifier. -/
def fileIdentifierBytes : List Nat := fileIdentifier.toList.map Char.toNat

/-- Modelled from the spec: the flatbuffer binary layout itself is produced
by generated code not among these sources.  Per the schema comment
("setting file_identifier adds a 'magic number' to bytes 4-7") a serialized
file is a 4-byte root offset, then the 4 identifier bytes, then the payload. -/
def serializedFile (rootOffset : List Nat) (payload : List Nat) : List Nat :=
  rootOffset ++ fileIdentifierBytes ++ payload

/-! Section: Helper predicates and lemmas -/

/-- A call falls through to the network fan-out stage exactly when local
canonicalization neither produced a usable local hit (nil error with a
non-empty path) nor a fatal error: either a nil error with an empty path, or
one of the two not-found errors. -/
def fallsThroughToNetwork (env : ResolveEnv) (ref : DatasetRef) : Bool :=
  let c := env.canonicalize ref
  (c.2.isNone && c.1.path = "") || c.2 = some GoErr.repoNotFound
    || c.2 = some GoErr.profileNotFound

/-- Contents of the caller's ref cell over the completion timeline of the
launched goroutines.  The list is the order in which tasks complete (each
task completes, then sends; the unbuffered channel makes consumption follow
completion, and post-winner sends are never consumed).  At each step:

* a completing peer task first performs `node.ResolveDatasetRef`'s in-place
  write of `pm` through the shared pointer (the registry task holds a private
  `refCopy` and never touches the cell);
* before a winner exists, a nil-error response additionally triggers the
  winning assignment `*ref = *res.Ref`;
* after a winner exists the loop has stopped consuming, but a completing
  peer task still writes the cell in place. -/
def callerRefCell (resp : TaskKind → Response) (pm : DatasetRef) :
    List TaskKind → Bool → DatasetRef → DatasetRef
  | [], _, cell => cell
  | k :: rest, winnerChosen, cell =>
      let cell1 := if k = TaskKind.peer then pm else cell
      if winnerChosen then
        callerRefCell resp pm rest true cell1
      else
        match (resp k).error with
        | none => callerRefCell resp pm rest true (resp k).ref
        | some _ => callerRefCell resp pm rest false cell1

/-- Final contents of the caller's ref cell once every launched goroutine has
completed, in completion order `completion`.  This refines the `.ref` field
of `ResolveOutcome` (which records only the function's own writes) with the
in-place mutation `node.ResolveDatasetRef` performs on the caller's ref from
the peer goroutine (`dataset_ref.go` line 61). -/
def callerRefFinal (env : ResolveEnv) (completion : List TaskKind)
    (ref : DatasetRef) : DatasetRef :=
  let ref1 := (env.canonicalize ref).1
  callerRefCell (taskResponse env ref1) (env.nodeResolve ref1).1
    completion false ref1

/-- Under `fallsThroughToNetwork`, with at least one launched task, the call
reduces to the consuming loop over the arrival order. -/
theorem resolveDatasetRef_network_eq (env : ResolveEnv) (arrival : List TaskKind)
    (ref : DatasetRef)
    (hfall : fallsThroughToNetwork env ref = true)
    (htasks : launchedTasks env ≠ []) :
    ResolveDatasetRef env arrival ref =
      match consumeResults (taskResponse env (env.canonicalize ref).1) arrival none with
      | (_, some winner) =>
          { isLocal := false, err := none, ref := winner.ref
            launched := launchedTasks env }
      | (lastErr, none) =>
          { isLocal := false
            err := some (GoErr.resolutionFailed (lastErr.getD (GoErr.errMsg "")))
            ref := (env.canonicalize ref).1, launched := launchedTasks env } := by
  unfold fallsThroughToNetwork at hfall
  rcases hc : env.canonicalize ref with ⟨ref1, cerr⟩
  rw [hc] at hfall
  simp only [ResolveDatasetRef, hc]
  cases cerr with
  | none =>
      simp only [Option.isNone_none, Bool.true_and, Bool.or_eq_true,
        decide_eq_true_eq, Option.some.injEq, reduceCtorEq, or_false,
        false_or] at hfall
      simp [hfall, htasks]
  | some e =>
      simp only [Option.isNone_some, Bool.false_and, Bool.false_or,
        Bool.or_eq_true, decide_eq_true_eq, Option.some.injEq] at hfall
      rcases hfall with h | h <;> subst h <;> simp [htasks]

/-- The consuming loop stops at the first nil-error response and returns it. -/
theorem consumeResults_first_success (resp : TaskKind → Response)
    (k : TaskKind) (post : List TaskKind) (hk : (resp k).error = none) :
    ∀ (pre : List TaskKind) (e0 : Option GoErr),
      (∀ j ∈ pre, (resp j).error ≠ none) →
      consumeResults resp (pre ++ k :: post) e0 = (none, some (resp k))
  | [], e0, _ => by simp [consumeResults, hk]
  | j :: rest, e0, hpre => by
      have hj := hpre j (List.mem_cons_self j rest)
      cases hje : (resp j).error with
      | none => exact absurd hje hj
      | some e =>
          simp only [List.cons_append, consumeResults, hje]
          exact consumeResults_first_success resp k post hk rest (some e)
            (fun x hx => hpre x (List.mem_cons_of_mem _ hx))

/-- A winner returned by the consuming loop always carries a nil error. -/
theorem consumeResults_winner_error_none (resp : TaskKind → Response)
    (l : List TaskKind) (e0 : Option GoErr) (w : Response)
    (hw : (consumeResults resp l e0).2 = some w) :
    w.error = none := by
  induction l generalizing e0 with
  | nil => simp [consumeResults] at hw
  | cons k rest ih =>
      simp only [consumeResults] at hw
      cases hke : (resp k).error with
      | none =>
          rw [hke] at hw
          simp at hw
          rw [← hw, hke]
      | some e =>
          rw [hke] at hw
          exact ih (some e) hw

/-- When every response in the arrival order carries an error, the consuming
loop reports the last response's error and no winner. -/
theorem consumeResults_all_errors (resp : TaskKind → Response) :
    ∀ (l : List TaskKind) (e0 : Option GoErr), l ≠ [] →
      (∀ k ∈ l, (resp k).error ≠ none) →
      ∃ k e, l.getLast? = some k ∧ (resp k).error = some e
        ∧ consumeResults resp l e0 = (some e, none)
  | [], _, hne, _ => absurd rfl hne
  | j :: rest, e0, _, herrs => by
      have hj := herrs j (List.mem_cons_self j rest)
      cases hje : (resp j).error with
      | none => exact absurd hje hj
      | some e =>
          cases hr : rest with
          | nil =>
              refine ⟨j, e, rfl, hje, ?_⟩
              simp [consumeResults, hje]
          | cons j2 rest2 =>
              obtain ⟨k, e2, hk1, hke, hk2⟩ := consumeResults_all_errors resp rest
                (some e) (by simp [hr]) (fun x hx => herrs x (List.mem_cons_of_mem _ hx))
              subst hr
              refine ⟨k, e2, ?_, hke, ?_⟩
              · rw [List.getLast?_cons_cons]
                exact hk1
              · simp only [consumeResults, hje]
                exact hk2

/-- After a winner exists, the cell keeps the winner's value unless a peer
task completes later, in which case its in-place write lands last. -/
theorem callerRefCell_postWinner (resp : TaskKind → Response) (pm : DatasetRef) :
    ∀ (l : List TaskKind) (cell : DatasetRef),
      callerRefCell resp pm l true cell
        = if TaskKind.peer ∈ l then pm else cell
  | [], cell => by simp [callerRefCell]
  | k :: rest, cell => by
      simp only [callerRefCell, if_true]
      rw [callerRefCell_postWinner resp pm rest]
      by_cases hk : k = TaskKind.peer
      · subst hk
        by_cases hp : TaskKind.peer ∈ rest <;> simp [hp]
      · have hne : ¬TaskKind.peer = k := fun h => hk h.symm
        by_cases hp : TaskKind.peer ∈ rest <;>
          simp [hp, hk, List.mem_cons, hne]

/-- Through the all-error prefix and the winning step, the cell ends at the
winner's ref, overwritten by the peer's in-place write exactly when the peer
completes after the winner. -/
theorem callerRefCell_first_success (resp : TaskKind → Response)
    (pm : DatasetRef) (k : TaskKind) (post : List TaskKind)
    (hk : (resp k).error = none) :
    ∀ (pre : List TaskKind) (cell : DatasetRef),
      (∀ j ∈ pre, (resp j).error ≠ none) →
      callerRefCell resp pm (pre ++ k :: post) false cell
        = if TaskKind.peer ∈ post then pm else (resp k).ref
  | [], cell, _ => by
      simp only [List.nil_append, callerRefCell, hk]
      exact callerRefCell_postWinner resp pm post (resp k).ref
  | j :: rest, cell, hpre => by
      have hj := hpre j (List.mem_cons_self j rest)
      cases hje : (resp j).error with
      | none => exact absurd hje hj
      | some e =>
          simp only [List.cons_append, callerRefCell, hje]
          exact callerRefCell_first_success resp pm k post hk rest
            (if j = TaskKind.peer then pm else cell)
            (fun x hx => hpre x (List.mem_cons_of_mem _ hx))

/-! Section: C1 and C2: the synchronous local stage -/

/-- C1. If local canonicalization succeeds with no error and yields a
complete ref, `ResolveDatasetRef` returns immediately with `local = true` and
a nil error, and launches no registry or peer-network task. -/
theorem resolveDatasetRef_local_hit (env : ResolveEnv) (arrival : List TaskKind)
    (ref : DatasetRef)
    (herr : (env.canonicalize ref).2 = none)
    (hcomp : (env.canonicalize ref).1.Complete = true) :
    ResolveDatasetRef env arrival ref =
      { isLocal := true, err := none, ref := (env.canonicalize ref).1
        launched := [] } := by
  have hpath : ((env.canonicalize ref).1.path != "") = true := by
    unfold DatasetRef.Complete at hcomp
    simp only [Bool.and_eq_true] at hcomp
    exact hcomp.2
  unfold ResolveDatasetRef
  rcases hc : env.canonicalize ref with ⟨ref1, cerr⟩
  rw [hc] at herr hpath
  subst herr
  simp [hpath]

/-- C2. If local canonicalization returns an error that is neither
`repo.ErrNotFound` nor `profile.ErrNotFound`, `ResolveDatasetRef` returns that
error immediately with `local = false` and launches no resolution task. -/
theorem resolveDatasetRef_local_error_aborts (env : ResolveEnv)
    (arrival : List TaskKind) (ref : DatasetRef) (e : GoErr)
    (herr : (env.canonicalize ref).2 = some e)
    (h1 : e ≠ GoErr.repoNotFound) (h2 : e ≠ GoErr.profileNotFound) :
    ResolveDatasetRef env arrival ref =
      { isLocal := false, err := some e, ref := (env.canonicalize ref).1
        launched := [] } := by
  unfold ResolveDatasetRef
  rcases hc : env.canonicalize ref with ⟨ref1, cerr⟩
  rw [hc] at herr
  subst herr
  simp [h1, h2]

/-! Section: C3 – C6: the fan-out stage -/

/-- C3. When the call reaches the fan-out stage, the first arriving
nil-error result is authoritative: its ref overwrites the caller's ref and
the call returns `local = false` with a nil error, regardless of how many
earlier-arriving results carried errors. -/
theorem resolveDatasetRef_first_success_wins (env : ResolveEnv)
    (ref : DatasetRef) (pre post : List TaskKind) (k : TaskKind)
    (hfall : fallsThroughToNetwork env ref = true)
    (hperm : (pre ++ k :: post).Perm (launchedTasks env))
    (hpre : ∀ j ∈ pre, (taskResponse env (env.canonicalize ref).1 j).error ≠ none)
    (hk : (taskResponse env (env.canonicalize ref).1 k).error = none) :
    ResolveDatasetRef env (pre ++ k :: post) ref =
      { isLocal := false, err := none
        ref := (taskResponse env (env.canonicalize ref).1 k).ref
        launched := launchedTasks env } := by
  have htasks : launchedTasks env ≠ [] := by
    intro h
    have hlen := hperm.length_eq
    simp [h] at hlen
  rw [resolveDatasetRef_network_eq env _ ref hfall htasks,
    consumeResults_first_success _ k post hk pre none hpre]

/-- C4 (amended). Once a winning result has been chosen, the still-pending
tasks' channel results are discarded: the returned value does not depend on
what arrives after the winner, and a losing registry task completing after
the winner cannot modify the caller's ref (it holds a private copy).  A
losing peer-network task completing after the winner, however, shares the
caller's ref pointer and overwrites the caller's ref in place. -/
theorem resolveDatasetRef_late_loser_discarded_amended (env : ResolveEnv)
    (ref : DatasetRef) (pre post post' : List TaskKind) (k : TaskKind)
    (hfall : fallsThroughToNetwork env ref = true)
    (hperm : (pre ++ k :: post).Perm (launchedTasks env))
    (hpre : ∀ j ∈ pre, (taskResponse env (env.canonicalize ref).1 j).error ≠ none)
    (hk : (taskResponse env (env.canonicalize ref).1 k).error = none) :
    (ResolveDatasetRef env (pre ++ k :: post) ref
        = ResolveDatasetRef env (pre ++ k :: post') ref)
      ∧ (TaskKind.peer ∉ post →
          callerRefFinal env (pre ++ k :: post) ref
            = (taskResponse env (env.canonicalize ref).1 k).ref)
      ∧ (TaskKind.peer ∈ post →
          callerRefFinal env (pre ++ k :: post) ref
            = (env.nodeResolve (env.canonicalize ref).1).1) := by
  have htasks : launchedTasks env ≠ [] := by
    intro h
    have hlen := hperm.length_eq
    simp [h] at hlen
  have hcell := callerRefCell_first_success
    (taskResponse env (env.canonicalize ref).1)
    ((env.nodeResolve (env.canonicalize ref).1).1) k post hk pre
    (env.canonicalize ref).1 hpre
  refine ⟨?_, ?_, ?_⟩
  · rw [resolveDatasetRef_network_eq env _ ref hfall htasks,
      resolveDatasetRef_network_eq env _ ref hfall htasks,
      consumeResults_first_success _ k post hk pre none hpre,
      consumeResults_first_success _ k post' hk pre none hpre]
  · intro hnot
    unfold callerRefFinal
    rw [hcell]
    simp [hnot]
  · intro hmem
    unfold callerRefFinal
    rw [hcell]
    simp [hmem]

/-- C5. A peer-network task that completes with a nil error but an
incomplete ref has its result converted into the
"p2p network responded with incomplete reference" error before it is placed
on the result channel, so it can never be the winner chosen by the consuming
loop. -/
theorem taskResponse_incomplete_peer_never_wins (env : ResolveEnv)
    (ref1 r : DatasetRef)
    (hout : env.nodeResolve ref1 = (r, none))
    (hincomp : r.Complete = false) :
    (taskResponse env ref1 TaskKind.peer).error
        = some GoErr.incompleteNetworkResponse
      ∧ ∀ (arrival : List TaskKind) (e0 : Option GoErr) (w : Response),
          (consumeResults (taskResponse env ref1) arrival e0).2 = some w →
          w ≠ taskResponse env ref1 TaskKind.peer := by
  have herr : (taskResponse env ref1 TaskKind.peer).error
      = some GoErr.incompleteNetworkResponse := by
    simp [taskResponse, hout, hincomp]
  refine ⟨herr, ?_⟩
  intro arrival e0 w hw hcontra
  have hnone := consumeResults_winner_error_none _ arrival e0 w hw
  rw [hcontra, herr] at hnone
  cases hnone

/-- C6. When the fan-out stage launches at least one task and every
result carries an error, the call returns `local = false` and a single
resolution-failed error wrapping the last observed task error. -/
theorem resolveDatasetRef_all_errors_fail (env : ResolveEnv)
    (ref : DatasetRef) (arrival : List TaskKind)
    (hfall : fallsThroughToNetwork env ref = true)
    (hperm : arrival.Perm (launchedTasks env))
    (htasks : launchedTasks env ≠ [])
    (herrs : ∀ j ∈ arrival,
      (taskResponse env (env.canonicalize ref).1 j).error ≠ none) :
    (ResolveDatasetRef env arrival ref).isLocal = false
      ∧ ∃ k e, arrival.getLast? = some k
          ∧ (taskResponse env (env.canonicalize ref).1 k).error = some e
          ∧ (ResolveDatasetRef env arrival ref).err
              = some (GoErr.resolutionFailed e) := by
  have hne : arrival ≠ [] := by
    intro h
    subst h
    exact htasks hperm.symm.eq_nil
  obtain ⟨k, e, hk1, hke, hk2⟩ :=
    consumeResults_all_errors (taskResponse env (env.canonicalize ref).1)
      arrival none hne herrs
  rw [resolveDatasetRef_network_eq env arrival ref hfall htasks, hk2]
  exact ⟨rfl, k, e, hk1, hke, rfl⟩

/-! Section: Concrete instances exercising the coordinator -/

/-- A human-typed partial ref: peername and dataset name only. -/
def partialRef : DatasetRef :=
  { peername := "alice", name := "sales", profileID := "", path := "" }

/-- The fully resolved counterpart of `partialRef`. -/
def fullRef : DatasetRef :=
  { peername := "alice", name := "sales", profileID := "QmProf"
    path := "/ipfs/QmHash" }

/-- Environment whose local repo canonicalizes to a complete ref; both remote
sources would fail, but must never be consulted. -/
def envLocalHit : ResolveEnv :=
  { canonicalize := fun _ => (fullRef, none)
    hasRegistryClient := true
    remoteAddr := "registry.qri.io"
    online := true
    resolveHeadRef := fun r => (r, some (GoErr.errMsg "registry unreachable"))
    nodeResolve := fun r => (r, some (GoErr.errMsg "no peers")) }

/-- Environment whose local repo fails with a non-not-found error; both
remote sources would succeed, but must never be consulted. -/
def envLocalError : ResolveEnv :=
  { canonicalize := fun r => (r, some (GoErr.errMsg "disk failure"))
    hasRegistryClient := true
    remoteAddr := "registry.qri.io"
    online := true
    resolveHeadRef := fun _ => (fullRef, none)
    nodeResolve := fun _ => (fullRef, none) }

/-- Environment realizing the spec's resolution race: the local repo reports
not-found, the registry resolves the ref, the peer network errors. -/
def envRace : ResolveEnv :=
  { canonicalize := fun r => (r, some GoErr.repoNotFound)
    hasRegistryClient := true
    remoteAddr := "registry.qri.io"
    online := true
    resolveHeadRef := fun r =>
      ({ r with profileID := "QmProf", path := "/ipfs/QmHash" }, none)
    nodeResolve := fun r => (r, some (GoErr.errMsg "p2p timeout")) }

/-- Environment where the peer network reports success with an incomplete
ref (no path populated). -/
def envIncompletePeer : ResolveEnv :=
  { canonicalize := fun r => (r, some GoErr.repoNotFound)
    hasRegistryClient := false
    remoteAddr := ""
    online := true
    resolveHeadRef := fun r => (r, none)
    nodeResolve := fun r => (r, none) }

/-- Environment where every remote source errors. -/
def envAllFail : ResolveEnv :=
  { canonicalize := fun r => (r, some GoErr.repoNotFound)
    hasRegistryClient := true
    remoteAddr := "registry.qri.io"
    online := true
    resolveHeadRef := fun r => (r, some (GoErr.errMsg "registry 500"))
    nodeResolve := fun r => (r, some (GoErr.errMsg "p2p timeout")) }

/-- C1 witness. With a complete local hit, the call is locally resolved
and launches nothing. -/
theorem resolveDatasetRef_local_hit_witness :
    ResolveDatasetRef envLocalHit [TaskKind.registry, TaskKind.peer] partialRef
      = { isLocal := true, err := none, ref := fullRef, launched := [] } :=
  resolveDatasetRef_local_hit envLocalHit [TaskKind.registry, TaskKind.peer]
    partialRef rfl (by decide)

/-- C2 witness. A local disk failure aborts resolution with no task
launched. -/
theorem resolveDatasetRef_local_error_aborts_witness :
    ResolveDatasetRef envLocalError [TaskKind.registry, TaskKind.peer] partialRef
      = { isLocal := false, err := some (GoErr.errMsg "disk failure")
          ref := partialRef, launched := [] } :=
  resolveDatasetRef_local_error_aborts envLocalError
    [TaskKind.registry, TaskKind.peer] partialRef (GoErr.errMsg "disk failure")
    rfl (by decide) (by decide)

/-- C3 witness. The peer task errors first, then the registry succeeds:
the registry's ref wins and the call returns `local = false`, `err = nil`. -/
theorem resolveDatasetRef_first_success_wins_witness :
    ResolveDatasetRef envRace [TaskKind.peer, TaskKind.registry] partialRef
      = { isLocal := false, err := none, ref := fullRef
          launched := [TaskKind.registry, TaskKind.peer] } :=
  resolveDatasetRef_first_success_wins envRace partialRef [TaskKind.peer] []
    TaskKind.registry (by decide) (by decide) (by decide) (by decide)

/-- Environment where the registry wins and the late peer task's in-place
mutation leaves a stale path in the caller's ref. -/
def envLateMutate : ResolveEnv :=
  { canonicalize := fun r => (r, some GoErr.repoNotFound)
    hasRegistryClient := true
    remoteAddr := "registry.qri.io"
    online := true
    resolveHeadRef := fun _ => (fullRef, none)
    nodeResolve := fun r =>
      ({ r with path := "/ipfs/QmStale" }, some (GoErr.errMsg "p2p timeout")) }

/-- C4 counterexample. The registry wins first with `fullRef`; the losing
peer task completes afterwards and, writing through the caller's ref
pointer, leaves the cell holding its own mutated ref rather than the
winner's: the late loser does modify the caller's ref, refuting the original
claim. -/
theorem lateLosingPeer_modifies_callerRef :
    (taskResponse envLateMutate partialRef TaskKind.registry).error = none
      ∧ (taskResponse envLateMutate partialRef TaskKind.peer).error
          = some (GoErr.errMsg "p2p timeout")
      ∧ (ResolveDatasetRef envLateMutate [TaskKind.registry, TaskKind.peer]
          partialRef).ref = fullRef
      ∧ callerRefFinal envLateMutate [TaskKind.registry, TaskKind.peer]
          partialRef
          = { peername := "alice", name := "sales", profileID := ""
              path := "/ipfs/QmStale" }
      ∧ callerRefFinal envLateMutate [TaskKind.registry, TaskKind.peer]
            partialRef
          ≠ (ResolveDatasetRef envLateMutate
              [TaskKind.registry, TaskKind.peer] partialRef).ref
      ∧ callerRefFinal envLateMutate [TaskKind.registry, TaskKind.peer]
            partialRef
          ≠ callerRefFinal envLateMutate [TaskKind.registry] partialRef := by
  decide

/-- C4 witness. After the registry wins: the returned value is the same
whether or not the losing peer result arrives; with no peer among the late
tasks the cell keeps the winner's ref; with the peer among them the cell
ends at the peer's in-place write. -/
theorem resolveDatasetRef_late_loser_discarded_amended_witness :
    (ResolveDatasetRef envRace [TaskKind.registry, TaskKind.peer] partialRef
        = ResolveDatasetRef envRace [TaskKind.registry] partialRef)
      ∧ (TaskKind.peer ∉ ([TaskKind.peer] : List TaskKind) →
          callerRefFinal envRace [TaskKind.registry, TaskKind.peer] partialRef
            = (taskResponse envRace (envRace.canonicalize partialRef).1
                TaskKind.registry).ref)
      ∧ (TaskKind.peer ∈ ([TaskKind.peer] : List TaskKind) →
          callerRefFinal envRace [TaskKind.registry, TaskKind.peer] partialRef
            = (envRace.nodeResolve (envRace.canonicalize partialRef).1).1) :=
  resolveDatasetRef_late_loser_discarded_amended envRace partialRef []
    [TaskKind.peer] [] TaskKind.registry (by decide) (by decide) (by decide)
    (by decide)

/-- C5 witness. A nil-error peer response whose ref is incomplete is
turned into the incomplete-network-response error and can win no race. -/
theorem taskResponse_incomplete_peer_never_wins_witness :
    (taskResponse envIncompletePeer partialRef TaskKind.peer).error
        = some GoErr.incompleteNetworkResponse
      ∧ ∀ (arrival : List TaskKind) (e0 : Option GoErr) (w : Response),
          (consumeResults (taskResponse envIncompletePeer partialRef) arrival
            e0).2 = some w →
          w ≠ taskResponse envIncompletePeer partialRef TaskKind.peer :=
  taskResponse_incomplete_peer_never_wins envIncompletePeer partialRef
    partialRef rfl (by decide)

/-- C6 witness. Both tasks error; the call fails with a
resolution-failed error wrapping the last observed error. -/
theorem resolveDatasetRef_all_errors_fail_witness :
    (ResolveDatasetRef envAllFail [TaskKind.registry, TaskKind.peer]
        partialRef).isLocal = false
      ∧ ∃ k e, ([TaskKind.registry, TaskKind.peer] : List TaskKind).getLast?
            = some k
          ∧ (taskResponse envAllFail
              (envAllFail.canonicalize partialRef).1 k).error = some e
          ∧ (ResolveDatasetRef envAllFail [TaskKind.registry, TaskKind.peer]
              partialRef).err = some (GoErr.resolutionFailed e) :=
  resolveDatasetRef_all_errors_fail envAllFail partialRef
    [TaskKind.registry, TaskKind.peer] (by decide) (by decide) (by decide)
    (by decide)

/-! Section: C7 – C9: the events-list handler -/

/-- C7. For a request whose body decodes, a zero or excessive limit is
clamped to `listMax` before `Repo.Events` is queried. -/
theorem handleEvents_clamps_limit (listMax : Int) (ep : EventsParams)
    (repoEvents : Int → Int → Except String (List Event)) (sendOk : Bool)
    (h : ep.limit = 0 ∨ ep.limit > listMax) :
    (handleEvents listMax "request" (Except.ok ep) repoEvents
        sendOk).queried = some (listMax, ep.offset) := by
  have hcond : (decide (ep.limit = 0) || decide (ep.limit > listMax)) = true := by
    rcases h with h | h <;> simp [h]
  cases hre : repoEvents listMax ep.offset <;>
    simp [handleEvents, hcond, hre]

/-- C8. A strictly negative limit is not clamped: the handler passes the
negative value unchanged to `Repo.Events`, bypassing the hard maximum
(`listMax` is positive in the deployed configuration). -/
theorem handleEvents_negative_limit_not_clamped (listMax : Int)
    (ep : EventsParams) (repoEvents : Int → Int → Except String (List Event))
    (sendOk : Bool) (hmax : 0 < listMax) (hneg : ep.limit < 0) :
    (handleEvents listMax "request" (Except.ok ep) repoEvents
        sendOk).queried = some (ep.limit, ep.offset) := by
  have hcond : (decide (ep.limit = 0) || decide (ep.limit > listMax)) = false := by
    have h1 : ep.limit ≠ 0 := by omega
    have h2 : ¬(ep.limit > listMax) := by omega
    simp [h1, h2]
  cases hre : repoEvents ep.limit ep.offset <;>
    simp [handleEvents, hcond, hre]

/-- C9. A request whose body fails to decode is logged and dropped: the
handler queries nothing and sends no reply, leaving the requester to time
out. -/
theorem handleEvents_malformed_body_dropped (listMax : Int) (errMsg : String)
    (repoEvents : Int → Int → Except String (List Event)) (sendOk : Bool) :
    handleEvents listMax "request" (Except.error errMsg) repoEvents sendOk
      = { hangup := true, loggedError := true, queried := none
          replied := none } := by
  unfold handleEvents
  rw [if_pos rfl]

/-- C7 witness. A requested limit of 1000 against a hard maximum of 25
is clamped to 25. -/
theorem handleEvents_clamps_limit_witness :
    (handleEvents 25 "request"
        (Except.ok { limit := 1000, offset := 0 })
        (fun _ _ => Except.ok [])
        true).queried = some (25, 0) :=
  handleEvents_clamps_limit 25 { limit := 1000, offset := 0 }
    (fun _ _ => Except.ok []) true (by decide)

/-- C8 witness. A requested limit of -1 bypasses the clamp and reaches
the repo query unchanged. -/
theorem handleEvents_negative_limit_not_clamped_witness :
    (handleEvents 25 "request"
        (Except.ok { limit := -1, offset := 0 })
        (fun _ _ => Except.ok [])
        true).queried = some (-1, 0) :=
  handleEvents_negative_limit_not_clamped 25 { limit := -1, offset := 0 }
    (fun _ _ => Except.ok []) true (by decide) (by decide)

/-! Section: C10: the serialized log format -/

/-- C10. The schema gives every Operation record the claimed wire types
(`type` a byte enum numbered Unknown=0, Init=1, Amend=2, Remove=3, `model`
unsigned 32-bit, `timestamp` signed 64-bit, `size` unsigned 64-bit, `ref`,
`prev`, `name`, `authorID`, `note` strings, `relations` a string list), and
a serialized file carries the fixed 4-byte identifier "QFBF" at byte offset
4 after the 4-byte root offset, with the dedicated extension "qfb" distinct
from a generic binary-blob extension. -/
theorem log_schema_wire_format :
    (OpType.toByte OpType.Unknown = 0 ∧ OpType.toByte OpType.Init = 1
      ∧ OpType.toByte OpType.Amend = 2 ∧ OpType.toByte OpType.Remove = 3)
    ∧ (operationSchema.lookup "type" = some FBType.byteEnum
      ∧ operationSchema.lookup "model" = some FBType.uint32
      ∧ operationSchema.lookup "timestamp" = some FBType.int64
      ∧ operationSchema.lookup "size" = some FBType.uint64
      ∧ operationSchema.lookup "ref" = some FBType.str
      ∧ operationSchema.lookup "prev" = some FBType.str
      ∧ operationSchema.lookup "name" = some FBType.str
      ∧ operationSchema.lookup "authorID" = some FBType.str
      ∧ operationSchema.lookup "note" = some FBType.str
      ∧ operationSchema.lookup "relations" = some FBType.vectorOfString)
    ∧ (fileIdentifier.length = 4
      ∧ (∀ (a b c d : Nat) (payload : List Nat),
          ((serializedFile [a, b, c, d] payload).drop 4).take 4
            = fileIdentifierBytes)
      ∧ fileExtension = "qfb" ∧ fileExtension ≠ "bin" ∧ fileExtension ≠ "") := by
  refine ⟨⟨rfl, rfl, rfl, rfl⟩,
    ⟨rfl, rfl, rfl, rfl, rfl, rfl, rfl, rfl, rfl, rfl⟩,
    ?_, ?_, rfl, by decide, by decide⟩
  · rfl
  · intro a b c d payload
    have hid : fileIdentifierBytes = [81, 70, 66, 70] := by decide
    simp [serializedFile, hid]

end Qri
